import Mathlib

/-!
Shallow embedding of the NSS face-detection attendance system
(`attendance/models.py`, `attendance/views.py`, `face_recognition/face_utils.py`).

Images are modelled as a readability flag (whether `cv2.imread` succeeds)
together with the ordered list of face regions that
`face_cascade.detectMultiScale` finds in them; a face region is identified by
its normalized 100x100 patch, abstracted to a `Nat`.  The LBPH classifier
`recognizer.predict` is an opaque function from patches to `(label,
confidence)` pairs, with confidence a rational distance (lower is better).
The Django ORM tables are lists of records; `Attendance.objects.get_or_create`
is a check-then-insert on the list.
-/

namespace NSS

/-- An input image: whether `cv2.imread` can read it, and the ordered list of
face patches `detectMultiScale` returns for it (empty list = no faces). -/
structure Image where
  readable : Bool
  faces : List Nat
  deriving Repr, DecidableEq

/-- A row of the `Student` table, restricted to the fields the attendance
write paths read: primary key `id`, external `student_id`, `is_active`. -/
structure DbStudent where
  pk : Nat
  student_id : String
  is_active : Bool
  deriving Repr, DecidableEq

/-- A row of the `Attendance` table (`models.py`, class `Attendance`):
foreign keys `student` and `event` (by primary key), `marked_by`,
`is_manual`, and the nullable `notes` text. -/
structure AttendanceRec where
  student : Nat
  event : Nat
  marked_by : Nat
  is_manual : Bool
  notes : Option String
  deriving Repr, DecidableEq

/-- The lookup kwargs of `Attendance.objects.get_or_create(student=..,
event=..)`: does record `a` match the (student, event) pair? -/
def samePair (st ev : Nat) (a : AttendanceRec) : Bool :=
  a.student == st && a.event == ev

/-- `Attendance.objects.get_or_create(student=st, event=ev, defaults={...})`:
if a record for the pair exists, return the table unchanged with
`created = false`; otherwise append the new record and report
`created = true`. -/
def get_or_create (l : List AttendanceRec) (st ev mb : Nat) (man : Bool)
    (nts : Option String) : List AttendanceRec × Bool :=
  if l.any (samePair st ev) then (l, false)
  else (l ++ [⟨st, ev, mb, man, nts⟩], true)

/-- Number of attendance records for a given (student, event) pair. -/
def countPair (st ev : Nat) (l : List AttendanceRec) : Nat :=
  l.countP (samePair st ev)

/-- The ledger invariant of `Attendance.Meta.unique_together =
['student', 'event']`: no two records share a (student, event) pair. -/
def PairUnique (l : List AttendanceRec) : Prop :=
  List.Pairwise (fun a b => ¬(a.student = b.student ∧ a.event = b.event)) l

instance (l : List AttendanceRec) : Decidable (PairUnique l) := by
  unfold PairUnique
  infer_instance

/-- `l'` extends `l` by appending only: every old record survives unchanged
and in place (writes never rewrite or clean up earlier rows). -/
def LedgerExtends (l l' : List AttendanceRec) : Prop :=
  ∃ suffix, l' = l ++ suffix

/-- The trained state of the recognizer as the group-attendance view uses it:
the opaque LBPH `predict` on a normalized patch, and the `label_ids`
label-to-student_id dictionary built during training. -/
structure TrainedModel where
  classify : Nat → Nat × ℚ
  label_ids : List (Nat × String)

/-- The body of `views.group_attendance`'s per-face acceptance:
`student_id = recognizer.label_ids.get(label)` followed by the truthiness
check `if student_id:` and the lookup
`Student.objects.get(student_id=student_id, is_active=True)`
(`DoesNotExist` is caught and the face skipped). -/
def resolveEnrolled (m : TrainedModel) (db : List DbStudent) (label : Nat) :
    Option DbStudent :=
  (m.label_ids.lookup label).bind fun sid =>
    if sid ≠ "" then db.find? (fun s => s.student_id == sid && s.is_active)
    else none

/-- One face of the `for (x, y, w, h) in faces:` loop of
`views.group_attendance`: predict the patch, and accept it only when
`confidence < T` and the label resolves to an active enrolled student. -/
def acceptFace (T : ℚ) (m : TrainedModel) (db : List DbStudent) (patch : Nat) :
    Option DbStudent :=
  if (m.classify patch).2 < T then resolveEnrolled m db (m.classify patch).1
  else none

/-- The recognition loop of `views.group_attendance` over the detected faces,
instrumented: first component is the list of `(label, confidence)` results
`recognizer.recognizer.predict` produces, one per face in detection order;
second component is the accumulated `recognized_students` list. -/
def recogLoop (T : ℚ) (m : TrainedModel) (db : List DbStudent) :
    List Nat → List (Nat × ℚ) × List DbStudent
  | [] => ([], [])
  | p :: ps =>
    let rest := recogLoop T m db ps
    match acceptFace T m db p with
    | some s => ((m.classify p) :: rest.1, s :: rest.2)
    | none => ((m.classify p) :: rest.1, rest.2)

/-- The `recognized_students` list `views.group_attendance` builds from the
detected faces. -/
def recognizedStudents (T : ℚ) (m : TrainedModel) (db : List DbStudent)
    (faces : List Nat) : List DbStudent :=
  (recogLoop T m db faces).2

/-- The `# Mark attendance for recognized students` loop of
`views.group_attendance`: one `get_or_create` per recognized student with
`defaults={'marked_by': coordinator, 'is_manual': False}` (no notes), counting
how many records were newly created (`attendance_count`). -/
def markGroup (coordinator ev : Nat) :
    List AttendanceRec → List DbStudent → List AttendanceRec × Nat
  | l, [] => (l, 0)
  | l, s :: ss =>
    let r := get_or_create l s.pk ev coordinator false none
    let r2 := markGroup coordinator ev r.1 ss
    (r2.1, (if r.2 then 1 else 0) + r2.2)

/-- Which flash message a request outcome carries (`messages.error` vs
`messages.success`). -/
inductive MsgKind
  | error
  | success
  deriving Repr, DecidableEq

/-- Outcome of one POST to `views.group_attendance`:
`invalidImage` = `cv2.imread` returned `None` (message 'Invalid image file!');
`noFaces` = `detectMultiScale` found nothing (message 'No faces detected in
the group photo!'); `completed` = the marking loop ran, with the resulting
attendance table and the `attendance_count` of newly created records. -/
inductive GroupOutcome
  | invalidImage
  | noFaces
  | completed (ledger : List AttendanceRec) (count : Nat)
  deriving Repr, DecidableEq

/-- The message level each `views.group_attendance` outcome is reported at:
both `invalidImage` and `noFaces` go through `messages.error`, completion
through `messages.success`. -/
def GroupOutcome.msgKind : GroupOutcome → MsgKind
  | .invalidImage => .error
  | .noFaces => .error
  | .completed _ _ => .success

/-- One POST to `views.group_attendance` with a trained model: read the
image, detect faces, recognize each face, and mark attendance for the
recognized students via `get_or_create`. -/
def group_attendance (m : TrainedModel) (db : List DbStudent)
    (l : List AttendanceRec) (coordinator ev : Nat) (img : Image) :
    GroupOutcome :=
  if !img.readable then .invalidImage
  else if img.faces.isEmpty then .noFaces
  else
    let r := markGroup coordinator ev l (recognizedStudents 70 m db img.faces)
    .completed r.1 r.2

/-- The notes string the manual path stores:
`f'Manually marked by admin. {admin_notes}'`. -/
def manualNotes (admin_notes : String) : String :=
  "Manually marked by admin. " ++ admin_notes

/-- The student loop of `views.manual_attendance` (the second, effective
definition): for each submitted id, look up
`Student.objects.get(id=student_id, is_active=True)` — `DoesNotExist` is
caught and the id silently skipped — then `get_or_create` with
`defaults={'marked_by': admin, 'is_manual': True, 'notes': f'Manually marked
by admin. {admin_notes}'}`, counting newly created records. -/
def manual_attendance (db : List DbStudent) (admin ev : Nat)
    (admin_notes : String) :
    List AttendanceRec → List Nat → List AttendanceRec × Nat
  | l, [] => (l, 0)
  | l, sid :: rest =>
    match db.find? (fun s => s.pk == sid && s.is_active) with
    | none => manual_attendance db admin ev admin_notes l rest
    | some s =>
      let r := get_or_create l s.pk ev admin true (some (manualNotes admin_notes))
      let r2 := manual_attendance db admin ev admin_notes r.1 rest
      (r2.1, (if r.2 then 1 else 0) + r2.2)

/-- One attendance write request: a group-photo submission or a manual
submission. -/
inductive WriteOp
  | group (m : TrainedModel) (coordinator ev : Nat) (img : Image)
  | manual (admin ev : Nat) (ids : List Nat) (admin_notes : String)

/-- Apply one write request to the attendance table. Rejected group
submissions (unreadable image, no faces) leave the table untouched. -/
def applyOp (db : List DbStudent) (l : List AttendanceRec) :
    WriteOp → List AttendanceRec
  | .group m c e img =>
    match group_attendance m db l c e img with
    | .completed l2 _ => l2
    | _ => l
  | .manual a e ids n => (manual_attendance db a e n l ids).1

/-- Run a sequence of write requests against the attendance table. -/
def runOps (db : List DbStudent) :
    List AttendanceRec → List WriteOp → List AttendanceRec
  | l, [] => l
  | l, op :: ops => runOps db (applyOp db l op) ops

/-! ### `face_recognition/face_utils.py`: `SimpleFaceRecognizer` -/

/-- A row of the enrollment store as `load_and_train` reads it: external
`student_id`, `is_active`, and the reference photo (`none` when the student
has no photo or the file does not exist; an unreadable photo is one
`cv2.imread` rejects). -/
structure EnrolledStudent where
  student_id : String
  is_active : Bool
  photo : Option Image
  deriving Repr, DecidableEq

/-- The faces `load_and_train` extracts from one student's reference photo:
none when the photo is missing or unreadable, otherwise the detected face
patches. -/
def refFaces (s : EnrolledStudent) : List Nat :=
  match s.photo with
  | some img => if img.readable then img.faces else []
  | none => []

/-- The accumulated training set of `load_and_train`: one `(patch,
owner student_id)` per detected face across the reference photos of the
active students (`Student.objects.filter(is_active=True)`), in enrollment
order. The i-th entry carries internal label i. -/
def trainingSet (students : List EnrolledStudent) : List (Nat × String) :=
  (students.filter (fun s => s.is_active)).flatMap
    (fun s => (refFaces s).map (fun p => (p, s.student_id)))

/-- The `label_ids` dictionary `load_and_train` accumulates: internal label i
maps to the student_id owning the i-th training patch. -/
def labelMap (ts : List (Nat × String)) : List (Nat × String) :=
  ts.enum.map (fun e => (e.1, e.2.2))

/-- `SimpleFaceRecognizer.load_and_train`: build the training set; if it is
empty (`if faces and labels:` fails) return `False` — modelled as `none` —
leaving `self.label_ids` unset; otherwise train and return `True` with the
accumulated `label_ids` — modelled as `some label_ids`. -/
def load_and_train (students : List EnrolledStudent) :
    Option (List (Nat × String)) :=
  let ts := trainingSet students
  if ts.isEmpty then none else some (labelMap ts)

/-- `SimpleFaceRecognizer` state as `recognize_face` sees it: the opaque
LBPH `predict`, and `label_ids` present exactly when
`hasattr(self, 'label_ids')` holds. -/
structure SFR where
  classify : Nat → Nat × ℚ
  label_ids : Option (List (Nat × String))

/-- The face loop of `recognize_face`, instrumented with the number of
`self.recognizer.predict` calls it makes: predict each face in order and
return `self.label_ids.get(label)` at the first face with
`confidence < 70` (returned even when the label is unmapped); `None` when no
face is below the threshold. -/
def scanFaces (classify : Nat → Nat × ℚ) (lids : List (Nat × String)) :
    List Nat → Option String × Nat
  | [] => (none, 0)
  | p :: ps =>
    if (classify p).2 < 70 then (lids.lookup (classify p).1, 1)
    else
      let r := scanFaces classify lids ps
      (r.1, r.2 + 1)

/-- The image part of `recognize_face`: `cv2.imread` failure returns `None`;
`len(faces) == 0` returns `None`; otherwise scan the detected faces. The
second component counts classifier invocations. -/
def recognizeBody (classify : Nat → Nat × ℚ) (lids : List (Nat × String))
    (img : Image) : Option String × Nat :=
  if !img.readable then (none, 0)
  else if img.faces.isEmpty then (none, 0)
  else scanFaces classify lids img.faces

/-- `SimpleFaceRecognizer.recognize_face`: if `label_ids` is absent, call
`load_and_train`; when training fails (`return False`) return `None` at once
(zero classifier invocations); otherwise process the image. The second
component counts classifier invocations. -/
def recognize_face (r : SFR) (students : List EnrolledStudent) (img : Image) :
    Option String × Nat :=
  match r.label_ids with
  | some lids => recognizeBody r.classify lids img
  | none =>
    match load_and_train students with
    | some lids => recognizeBody r.classify lids img
    | none => (none, 0)

/-! ### Basic lemmas about the write primitives -/

theorem ledgerExtends_refl (l : List AttendanceRec) : LedgerExtends l l :=
  ⟨[], (List.append_nil l).symm⟩

theorem ledgerExtends_trans {l1 l2 l3 : List AttendanceRec}
    (h1 : LedgerExtends l1 l2) (h2 : LedgerExtends l2 l3) :
    LedgerExtends l1 l3 := by
  obtain ⟨s1, rfl⟩ := h1
  obtain ⟨s2, rfl⟩ := h2
  exact ⟨s1 ++ s2, List.append_assoc l1 s1 s2⟩

theorem any_of_ledgerExtends {l l' : List AttendanceRec}
    {p : AttendanceRec → Bool} (h : l.any p = true)
    (he : LedgerExtends l l') : l'.any p = true := by
  obtain ⟨s, rfl⟩ := he
  rw [List.any_eq_true] at h ⊢
  obtain ⟨a, ha, hp⟩ := h
  exact ⟨a, List.mem_append_left _ ha, hp⟩

theorem get_or_create_extends (l : List AttendanceRec) (st ev mb : Nat)
    (man : Bool) (nts : Option String) :
    LedgerExtends l (get_or_create l st ev mb man nts).1 := by
  unfold get_or_create
  split
  · exact ledgerExtends_refl l
  · exact ⟨[⟨st, ev, mb, man, nts⟩], rfl⟩

theorem get_or_create_present (l : List AttendanceRec) (st ev mb : Nat)
    (man : Bool) (nts : Option String) :
    ((get_or_create l st ev mb man nts).1).any (samePair st ev) = true := by
  unfold get_or_create
  split
  · assumption
  · simp [samePair]

theorem get_or_create_of_present {l : List AttendanceRec} {st ev : Nat}
    (mb : Nat) (man : Bool) (nts : Option String)
    (h : l.any (samePair st ev) = true) :
    get_or_create l st ev mb man nts = (l, false) := by
  unfold get_or_create
  simp [h]

theorem get_or_create_pairUnique {l : List AttendanceRec} (st ev mb : Nat)
    (man : Bool) (nts : Option String) (h : PairUnique l) :
    PairUnique (get_or_create l st ev mb man nts).1 := by
  unfold get_or_create
  split
  · exact h
  · next habs =>
    unfold PairUnique at h ⊢
    rw [List.pairwise_append]
    refine ⟨h, List.pairwise_singleton _ _, ?_⟩
    intro a ha b hb
    simp only [List.mem_singleton] at hb
    subst hb
    intro hcon
    apply habs
    rw [List.any_eq_true]
    refine ⟨a, ha, ?_⟩
    simp [samePair, hcon.1, hcon.2]

theorem get_or_create_mem {l : List AttendanceRec} {st ev mb : Nat}
    {man : Bool} {nts : Option String} {a : AttendanceRec}
    (h : a ∈ (get_or_create l st ev mb man nts).1) :
    a ∈ l ∨ a = ⟨st, ev, mb, man, nts⟩ := by
  unfold get_or_create at h
  split at h
  · exact Or.inl h
  · rcases List.mem_append.mp h with h' | h'
    · exact Or.inl h'
    · exact Or.inr (List.mem_singleton.mp h')

theorem get_or_create_count_le (l : List AttendanceRec) (st ev mb st' ev' : Nat)
    (man : Bool) (nts : Option String) :
    countPair st' ev' (get_or_create l st ev mb man nts).1 ≤
      countPair st' ev' l + 1 := by
  unfold get_or_create countPair
  split
  · exact Nat.le_succ_of_le (Nat.le_refl _)
  · rw [List.countP_append]
    have : List.countP (samePair st' ev') [(⟨st, ev, mb, man, nts⟩ : AttendanceRec)] ≤ 1 := by
      by_cases hp : samePair st' ev' ⟨st, ev, mb, man, nts⟩ = true <;>
        simp [List.countP_cons, hp]
    omega

theorem get_or_create_count_of_present {l : List AttendanceRec} {st' ev' : Nat}
    (st ev mb : Nat) (man : Bool) (nts : Option String)
    (h : l.any (samePair st' ev') = true) :
    countPair st' ev' (get_or_create l st ev mb man nts).1 =
      countPair st' ev' l := by
  unfold get_or_create countPair
  split
  · rfl
  · next habs =>
    rw [List.countP_append]
    have hne : samePair st' ev' ⟨st, ev, mb, man, nts⟩ = false := by
      by_contra hc
      rw [Bool.not_eq_false] at hc
      have h2 : st = st' ∧ ev = ev' := by simpa [samePair] using hc
      rw [← h2.1, ← h2.2] at h
      exact habs h
    simp [List.countP_cons, hne]

theorem countP_zero_of_any_false {l : List AttendanceRec}
    {p : AttendanceRec → Bool} (h : l.any p = false) : l.countP p = 0 := by
  rw [List.countP_eq_zero]
  intro a ha
  rw [List.any_eq_false] at h
  exact h a ha

/-! ### Lemmas about the group marking loop -/

theorem markGroup_extends (c e : Nat) (ss : List DbStudent) :
    ∀ l, LedgerExtends l (markGroup c e l ss).1 := by
  induction ss with
  | nil => intro l; exact ledgerExtends_refl l
  | cons s ss ih =>
    intro l
    simp only [markGroup]
    exact ledgerExtends_trans (get_or_create_extends l s.pk e c false none)
      (ih _)

theorem markGroup_present (c e : Nat) (ss : List DbStudent) :
    ∀ l, ∀ s ∈ ss, ((markGroup c e l ss).1).any (samePair s.pk e) = true := by
  induction ss with
  | nil => intro l s hs; exact absurd hs (List.not_mem_nil s)
  | cons t ss ih =>
    intro l s hs
    simp only [markGroup]
    rcases List.mem_cons.mp hs with rfl | hs'
    · exact any_of_ledgerExtends
        (get_or_create_present l s.pk e c false none) (markGroup_extends c e ss _)
    · exact ih _ s hs'

theorem markGroup_stable (c e : Nat) (ss : List DbStudent) :
    ∀ l, (∀ s ∈ ss, l.any (samePair s.pk e) = true) →
      markGroup c e l ss = (l, 0) := by
  induction ss with
  | nil => intro l _; rfl
  | cons t ss ih =>
    intro l h
    have h1 := h t (List.mem_cons_self t ss)
    simp only [markGroup, get_or_create_of_present c false none h1,
      ih l (fun s hs => h s (List.mem_cons_of_mem t hs))]
    simp

theorem markGroup_pairUnique (c e : Nat) (ss : List DbStudent) :
    ∀ l, PairUnique l → PairUnique (markGroup c e l ss).1 := by
  induction ss with
  | nil => intro l h; exact h
  | cons t ss ih =>
    intro l h
    simp only [markGroup]
    exact ih _ (get_or_create_pairUnique t.pk e c false none h)

theorem markGroup_mem (c e : Nat) (ss : List DbStudent) :
    ∀ l a, a ∈ (markGroup c e l ss).1 →
      a ∈ l ∨ ∃ s ∈ ss, a = ⟨s.pk, e, c, false, none⟩ := by
  induction ss with
  | nil => intro l a ha; exact Or.inl ha
  | cons t ss ih =>
    intro l a ha
    simp only [markGroup] at ha
    rcases ih _ a ha with h' | ⟨s, hs, rfl⟩
    · rcases get_or_create_mem h' with h'' | rfl
      · exact Or.inl h''
      · exact Or.inr ⟨t, List.mem_cons_self t ss, rfl⟩
    · exact Or.inr ⟨s, List.mem_cons_of_mem t hs, rfl⟩

theorem markGroup_count_present (c e st ev : Nat) (ss : List DbStudent) :
    ∀ l, l.any (samePair st ev) = true →
      countPair st ev (markGroup c e l ss).1 = countPair st ev l := by
  induction ss with
  | nil => intro l _; rfl
  | cons t ss ih =>
    intro l h
    simp only [markGroup]
    rw [ih _ (any_of_ledgerExtends h (get_or_create_extends l t.pk e c false none))]
    exact get_or_create_count_of_present t.pk e c false none h

theorem markGroup_count_le (c e st ev : Nat) (ss : List DbStudent) :
    ∀ l, countPair st ev (markGroup c e l ss).1 ≤ countPair st ev l + 1 := by
  induction ss with
  | nil => intro l; exact Nat.le_succ_of_le (Nat.le_refl _)
  | cons t ss ih =>
    intro l
    simp only [markGroup]
    rcases hr : ((get_or_create l t.pk e c false none).1).any (samePair st ev) with _ | _
    · have h0 : countPair st ev (get_or_create l t.pk e c false none).1 = 0 :=
        countP_zero_of_any_false hr
      calc countPair st ev (markGroup c e (get_or_create l t.pk e c false none).1 ss).1
          ≤ countPair st ev (get_or_create l t.pk e c false none).1 + 1 := ih _
        _ ≤ countPair st ev l + 1 := by omega
    · rw [markGroup_count_present c e st ev ss _ hr]
      exact get_or_create_count_le l t.pk e c st ev false none

/-! ### Lemmas about the recognition loop -/

theorem recogLoop_fst (T : ℚ) (m : TrainedModel) (db : List DbStudent) :
    ∀ ps, (recogLoop T m db ps).1 = ps.map m.classify := by
  intro ps
  induction ps with
  | nil => rfl
  | cons p ps ih =>
    rcases h : acceptFace T m db p with _ | s <;>
      simp [recogLoop, h, ih]

theorem recogLoop_snd (T : ℚ) (m : TrainedModel) (db : List DbStudent) :
    ∀ ps, (recogLoop T m db ps).2 = ps.filterMap (acceptFace T m db) := by
  intro ps
  induction ps with
  | nil => rfl
  | cons p ps ih =>
    rcases h : acceptFace T m db p with _ | s <;>
      simp [recogLoop, h, ih]

theorem group_attendance_completed {m : TrainedModel} {db : List DbStudent}
    {l : List AttendanceRec} {c e : Nat} {img : Image}
    {l2 : List AttendanceRec} {n : Nat}
    (h : group_attendance m db l c e img = .completed l2 n) :
    img.readable = true ∧ img.faces.isEmpty = false ∧
      markGroup c e l (recognizedStudents 70 m db img.faces) = (l2, n) := by
  unfold group_attendance at h
  split at h
  · simp at h
  · split at h
    · simp at h
    · next h1 h2 =>
      simp only [GroupOutcome.completed.injEq] at h
      refine ⟨by simpa using h1, by simpa using h2, ?_⟩
      exact Prod.ext_iff.mpr h

/-! ### Lemmas about the manual marking loop -/

theorem manual_attendance_extends (db : List DbStudent) (ad ev : Nat)
    (nts : String) (ids : List Nat) :
    ∀ l, LedgerExtends l (manual_attendance db ad ev nts l ids).1 := by
  induction ids with
  | nil => intro l; exact ledgerExtends_refl l
  | cons sid rest ih =>
    intro l
    simp only [manual_attendance]
    rcases h : db.find? (fun s => s.pk == sid && s.is_active) with _ | s <;> rw [h]
    · exact ih l
    · exact ledgerExtends_trans
        (get_or_create_extends l s.pk ev ad true (some (manualNotes nts))) (ih _)

theorem manual_attendance_pairUnique (db : List DbStudent) (ad ev : Nat)
    (nts : String) (ids : List Nat) :
    ∀ l, PairUnique l → PairUnique (manual_attendance db ad ev nts l ids).1 := by
  induction ids with
  | nil => intro l h; exact h
  | cons sid rest ih =>
    intro l h
    simp only [manual_attendance]
    rcases hf : db.find? (fun s => s.pk == sid && s.is_active) with _ | s <;> rw [hf]
    · exact ih l h
    · exact ih _ (get_or_create_pairUnique s.pk ev ad true (some (manualNotes nts)) h)

theorem manual_attendance_mem (db : List DbStudent) (ad ev : Nat)
    (nts : String) (ids : List Nat) :
    ∀ l a, a ∈ (manual_attendance db ad ev nts l ids).1 →
      a ∈ l ∨ ∃ sid ∈ ids, ∃ s, db.find? (fun t => t.pk == sid && t.is_active) = some s ∧
        a = ⟨s.pk, ev, ad, true, some (manualNotes nts)⟩ := by
  induction ids with
  | nil => intro l a ha; exact Or.inl ha
  | cons sid rest ih =>
    intro l a ha
    simp only [manual_attendance] at ha
    rcases hf : db.find? (fun s => s.pk == sid && s.is_active) with _ | s <;>
      rw [hf] at ha
    · rcases ih l a ha with h' | ⟨sid', hsid', s', hs', rfl⟩
      · exact Or.inl h'
      · exact Or.inr ⟨sid', List.mem_cons_of_mem sid hsid', s', hs', rfl⟩
    · rcases ih _ a ha with h' | ⟨sid', hsid', s', hs', rfl⟩
      · rcases get_or_create_mem h' with h'' | rfl
        · exact Or.inl h''
        · exact Or.inr ⟨sid, List.mem_cons_self sid rest, s, hf, rfl⟩
      · exact Or.inr ⟨sid', List.mem_cons_of_mem sid hsid', s', hs', rfl⟩

theorem markGroup_idem (c e : Nat) (ss : List DbStudent) (l : List AttendanceRec) :
    markGroup c e (markGroup c e l ss).1 ss = ((markGroup c e l ss).1, 0) :=
  markGroup_stable c e ss _ (fun s hs => markGroup_present c e ss l s hs)

theorem applyOp_pairUnique (db : List DbStudent) (op : WriteOp)
    (l : List AttendanceRec) (h : PairUnique l) :
    PairUnique (applyOp db l op) := by
  cases op with
  | group m c e img =>
    simp only [applyOp]
    rcases hg : group_attendance m db l c e img with _ | _ | ⟨l2, n⟩
    · exact h
    · exact h
    · obtain ⟨_, _, hmk⟩ := group_attendance_completed hg
      have hu := markGroup_pairUnique c e (recognizedStudents 70 m db img.faces) l h
      rw [hmk] at hu
      exact hu
  | manual a e ids nts => exact manual_attendance_pairUnique db a e nts ids l h

theorem applyOp_extends (db : List DbStudent) (op : WriteOp)
    (l : List AttendanceRec) : LedgerExtends l (applyOp db l op) := by
  cases op with
  | group m c e img =>
    simp only [applyOp]
    rcases hg : group_attendance m db l c e img with _ | _ | ⟨l2, n⟩
    · exact ledgerExtends_refl l
    · exact ledgerExtends_refl l
    · obtain ⟨_, _, hmk⟩ := group_attendance_completed hg
      have he := markGroup_extends c e (recognizedStudents 70 m db img.faces) l
      rw [hmk] at he
      exact he
  | manual a e ids nts => exact manual_attendance_extends db a e nts ids l

/-! ### Claim theorems -/

/-- C1: for every (student, event) pair, after any sequence of group-photo
and manual submissions, at most one Attendance record exists for that pair
(the ledger stays `PairUnique`); moreover every write path only appends —
existing records are never rewritten or cleaned up afterwards
(`LedgerExtends`), so uniqueness is enforced at write time by each
`get_or_create`, never by later cleanup. -/
theorem C1_pair_uniqueness (db : List DbStudent) (l0 : List AttendanceRec)
    (ops : List WriteOp) (h : PairUnique l0) :
    PairUnique (runOps db l0 ops) ∧ LedgerExtends l0 (runOps db l0 ops) := by
  induction ops generalizing l0 with
  | nil => exact ⟨h, ledgerExtends_refl l0⟩
  | cons op ops ih =>
    obtain ⟨hu, he⟩ := ih (applyOp db l0 op) (applyOp_pairUnique db op l0 h)
    exact ⟨hu, ledgerExtends_trans (applyOp_extends db op l0) he⟩

theorem C1_pair_uniqueness_witness :
    PairUnique (runOps [⟨1, "S1", true⟩, ⟨2, "S2", true⟩] []
        [WriteOp.group ⟨fun p => (p, 50), [(0, "S1"), (1, "S2")]⟩ 9 5 ⟨true, [0, 1, 0]⟩,
         WriteOp.manual 9 5 [2, 3] "absent from photo"]) ∧
      LedgerExtends [] (runOps [⟨1, "S1", true⟩, ⟨2, "S2", true⟩] []
        [WriteOp.group ⟨fun p => (p, 50), [(0, "S1"), (1, "S2")]⟩ 9 5 ⟨true, [0, 1, 0]⟩,
         WriteOp.manual 9 5 [2, 3] "absent from photo"]) :=
  C1_pair_uniqueness [⟨1, "S1", true⟩, ⟨2, "S2", true⟩] []
    [WriteOp.group ⟨fun p => (p, 50), [(0, "S1"), (1, "S2")]⟩ 9 5 ⟨true, [0, 1, 0]⟩,
     WriteOp.manual 9 5 [2, 3] "absent from photo"] (by decide)

/-- C2: `get_or_create` on a (student, event) pair that already has a record
leaves the table unchanged and reports `created = false` (a benign no-op,
not an error), and consequently submitting the same group photo against the
same event a second time completes with the table unchanged and zero newly
created records. -/
theorem C2_duplicate_write_noop (l : List AttendanceRec) (st ev mb : Nat)
    (man : Bool) (nts : Option String) (m : TrainedModel) (db : List DbStudent)
    (c e : Nat) (img : Image) (l2 : List AttendanceRec) (n : Nat) :
    (l.any (samePair st ev) = true → get_or_create l st ev mb man nts = (l, false))
    ∧ (group_attendance m db l c e img = .completed l2 n →
        group_attendance m db l2 c e img = .completed l2 0) := by
  constructor
  · intro h
    exact get_or_create_of_present mb man nts h
  · intro h
    obtain ⟨hr, hf, hmk⟩ := group_attendance_completed h
    have hl2 : (markGroup c e l (recognizedStudents 70 m db img.faces)).1 = l2 := by
      rw [hmk]
    unfold group_attendance
    rw [hr, hf]
    simp only [Bool.not_true, Bool.false_eq_true, if_false]
    rw [← hl2, markGroup_idem]

theorem C2_duplicate_write_noop_witness :
    get_or_create [⟨1, 5, 9, false, none⟩] 1 5 9 false none
        = ([⟨1, 5, 9, false, none⟩], false)
    ∧ group_attendance ⟨fun p => (p, 50), [(0, "S1")]⟩ [⟨1, "S1", true⟩]
        [⟨1, 5, 9, false, none⟩] 9 5 ⟨true, [0]⟩
        = .completed [⟨1, 5, 9, false, none⟩] 0 :=
  ⟨(C2_duplicate_write_noop [⟨1, 5, 9, false, none⟩] 1 5 9 false none
      ⟨fun p => (p, 50), [(0, "S1")]⟩ [⟨1, "S1", true⟩] 9 5 ⟨true, [0]⟩
      [⟨1, 5, 9, false, none⟩] 0).1 (by decide),
   (C2_duplicate_write_noop [⟨1, 5, 9, false, none⟩] 1 5 9 false none
      ⟨fun p => (p, 50), [(0, "S1")]⟩ [⟨1, "S1", true⟩] 9 5 ⟨true, [0]⟩
      [⟨1, 5, 9, false, none⟩] 0).2 (by decide)⟩

/-- Spec-side reading (section 4.4 of the spec) of "its label resolves to an
enrolled Identity": the model's label map yields a non-empty student_id and
the directory holds an active student `s` under that id. -/
def ResolvesToEnrolled (m : TrainedModel) (db : List DbStudent) (label : Nat)
    (s : DbStudent) : Prop :=
  ∃ sid, m.label_ids.lookup label = some sid ∧ sid ≠ "" ∧
    db.find? (fun t => t.student_id == sid && t.is_active) = some s

theorem acceptFace_active {T : ℚ} {m : TrainedModel} {db : List DbStudent}
    {p : Nat} {s : DbStudent} (h : acceptFace T m db p = some s) :
    s ∈ db ∧ s.is_active = true := by
  unfold acceptFace at h
  split at h
  · unfold resolveEnrolled at h
    rcases hl : (m.label_ids).lookup (m.classify p).1 with _ | sid <;> rw [hl] at h
    · simp at h
    · rw [Option.some_bind] at h
      split at h
      · have hmem := List.mem_of_find?_eq_some h
        have hp := List.find?_some h
        simp only [Bool.and_eq_true, beq_iff_eq] at hp
        exact ⟨hmem, hp.2⟩
      · simp at h
  · simp at h

/-- C4: in the group-photo path, a detected face is accepted (turned into a
recognized student) iff its confidence is strictly below the threshold and
its label resolves to an enrolled active Identity; and every record the
submission adds to the ledger comes from such an accepted face — results
failing the rule are never automatically persisted. -/
theorem C4_accept_iff (T : ℚ) (m : TrainedModel) (db : List DbStudent)
    (p : Nat) (s : DbStudent) (l : List AttendanceRec) (c e : Nat)
    (img : Image) (l2 : List AttendanceRec) (n : Nat) :
    (acceptFace T m db p = some s ↔
      (m.classify p).2 < T ∧ ResolvesToEnrolled m db (m.classify p).1 s)
    ∧ (group_attendance m db l c e img = .completed l2 n →
        ∀ a ∈ l2, a ∉ l →
          ∃ q ∈ img.faces, ∃ s', acceptFace 70 m db q = some s' ∧
            a = ⟨s'.pk, e, c, false, none⟩) := by
  constructor
  · constructor
    · intro h
      unfold acceptFace at h
      split at h
      · next hT =>
        refine ⟨hT, ?_⟩
        unfold resolveEnrolled at h
        rcases hl : (m.label_ids).lookup (m.classify p).1 with _ | sid <;>
          rw [hl] at h
        · simp at h
        · rw [Option.some_bind] at h
          split at h
          · next hne => exact ⟨sid, hl, hne, h⟩
          · simp at h
      · simp at h
    · rintro ⟨hT, sid, hl, hne, hf⟩
      unfold acceptFace resolveEnrolled
      rw [if_pos hT, hl, Option.some_bind, if_pos hne, hf]
  · intro hg a ha hnl
    obtain ⟨_, _, hmk⟩ := group_attendance_completed hg
    have hl2 : (markGroup c e l (recognizedStudents 70 m db img.faces)).1 = l2 := by
      rw [hmk]
    rcases markGroup_mem c e _ l a (hl2 ▸ ha) with h' | ⟨s', hs', rfl⟩
    · exact absurd h' hnl
    · have hmem : s' ∈ (img.faces).filterMap (acceptFace 70 m db) := by
        rw [← recogLoop_snd]
        exact hs'
      rcases List.mem_filterMap.mp hmem with ⟨q, hq, hacc⟩
      exact ⟨q, hq, s', hacc, rfl⟩

theorem C4_accept_iff_witness :
    ∃ q ∈ ([0] : List Nat), ∃ s',
      acceptFace 70 ⟨fun p => (p, 50), [(0, "S1")]⟩ [⟨1, "S1", true⟩] q = some s' ∧
        (⟨1, 5, 9, false, none⟩ : AttendanceRec) = ⟨s'.pk, 5, 9, false, none⟩ :=
  (C4_accept_iff 70 ⟨fun p => (p, 50), [(0, "S1")]⟩ [⟨1, "S1", true⟩] 0
      ⟨1, "S1", true⟩ [] 9 5 ⟨true, [0]⟩ [⟨1, 5, 9, false, none⟩] 1).2
    (by decide) ⟨1, 5, 9, false, none⟩ (by decide) (by decide)

/-- C5: for a fixed face list, lowering the confidence threshold never
enlarges the set of accepted identities: the deduplicated accepted set at
threshold T' ≤ T is no larger than at T. -/
theorem C5_threshold_monotone (T T' : ℚ) (m : TrainedModel)
    (db : List DbStudent) (faces : List Nat) (h : T' ≤ T) :
    ((recognizedStudents T' m db faces).toFinset).card ≤
      ((recognizedStudents T m db faces).toFinset).card := by
  apply Finset.card_le_card
  intro s hs
  rw [List.mem_toFinset] at hs ⊢
  unfold recognizedStudents at hs ⊢
  rw [recogLoop_snd] at hs ⊢
  rcases List.mem_filterMap.mp hs with ⟨q, hq, hacc⟩
  refine List.mem_filterMap.mpr ⟨q, hq, ?_⟩
  unfold acceptFace at hacc ⊢
  split at hacc
  · next hlt => rw [if_pos (lt_of_lt_of_le hlt h)]; exact hacc
  · simp at hacc

theorem C5_threshold_monotone_witness :
    ((recognizedStudents 50 ⟨fun p => (p, 60), [(0, "S1")]⟩ [⟨1, "S1", true⟩]
        [0]).toFinset).card ≤
      ((recognizedStudents 70 ⟨fun p => (p, 60), [(0, "S1")]⟩ [⟨1, "S1", true⟩]
        [0]).toFinset).card :=
  C5_threshold_monotone 70 50 ⟨fun p => (p, 60), [(0, "S1")]⟩ [⟨1, "S1", true⟩]
    [0] (by norm_num)

/-- C6: one group-photo submission creates at most one new attendance record
per (student, event) pair, even when several accepted detections (e.g.
overlapping bounding boxes of one physical face) resolve to the same
Identity. -/
theorem C6_same_identity_collapsed (m : TrainedModel) (db : List DbStudent)
    (l : List AttendanceRec) (c e : Nat) (img : Image)
    (l2 : List AttendanceRec) (n : Nat) (st ev : Nat)
    (h : group_attendance m db l c e img = .completed l2 n) :
    countPair st ev l2 ≤ countPair st ev l + 1 := by
  obtain ⟨_, _, hmk⟩ := group_attendance_completed h
  have hle := markGroup_count_le c e st ev (recognizedStudents 70 m db img.faces) l
  rw [hmk] at hle
  exact hle

theorem C6_same_identity_collapsed_witness :
    countPair 1 5 [⟨1, 5, 9, false, none⟩] ≤ countPair 1 5 [] + 1 :=
  C6_same_identity_collapsed ⟨fun p => (p, 50), [(0, "S1")]⟩ [⟨1, "S1", true⟩]
    [] 9 5 ⟨true, [0, 0]⟩ [⟨1, 5, 9, false, none⟩] 1 1 5 (by decide)

/-- C7: the recognition loop of the group-photo path classifies every
detected face exactly once, in detection order (its instrumented trace is
the per-face map of the classifier), and a label missing from the model's
map makes the face unresolved — it is skipped, not a fatal error. -/
theorem C7_one_result_per_face (T : ℚ) (m : TrainedModel)
    (db : List DbStudent) (img : Image) :
    (recogLoop T m db img.faces).1 = img.faces.map m.classify
    ∧ ((recogLoop T m db img.faces).1).length = img.faces.length
    ∧ (∀ p, (m.label_ids).lookup (m.classify p).1 = none →
        acceptFace T m db p = none) := by
  refine ⟨recogLoop_fst T m db img.faces, ?_, ?_⟩
  · rw [recogLoop_fst]
    exact List.length_map _ _
  · intro p hnone
    unfold acceptFace resolveEnrolled
    rw [hnone, Option.none_bind]
    split <;> rfl

theorem C7_one_result_per_face_witness :
    (recogLoop 70 ⟨fun p => (p, 50), [(0, "S1")]⟩ [⟨1, "S1", true⟩] [0, 7]).1
        = [0, 7].map (fun p => (p, (50 : ℚ)))
    ∧ ((recogLoop 70 ⟨fun p => (p, 50), [(0, "S1")]⟩ [⟨1, "S1", true⟩] [0, 7]).1).length
        = [0, 7].length
    ∧ acceptFace 70 ⟨fun p => (p, 50), [(0, "S1")]⟩ [⟨1, "S1", true⟩] 7 = none :=
  ⟨(C7_one_result_per_face 70 ⟨fun p => (p, 50), [(0, "S1")]⟩ [⟨1, "S1", true⟩]
      ⟨true, [0, 7]⟩).1,
   (C7_one_result_per_face 70 ⟨fun p => (p, 50), [(0, "S1")]⟩ [⟨1, "S1", true⟩]
      ⟨true, [0, 7]⟩).2.1,
   (C7_one_result_per_face 70 ⟨fun p => (p, 50), [(0, "S1")]⟩ [⟨1, "S1", true⟩]
      ⟨true, [0, 7]⟩).2.2 7 (by decide)⟩

theorem manualNotes_ne_empty (nts : String) : manualNotes nts ≠ "" := by
  intro hc
  have hlen := congrArg String.length hc
  rw [manualNotes, String.length_append] at hlen
  simp at hlen
  exact absurd hlen.1 (by decide)

/-- C9: every record the manual path creates has `is_manual = true` and a
non-empty notes text ('Manually marked by admin. ' plus the admin's note),
and every record the automatic group-photo path creates has
`is_manual = false` and no notes at all. -/
theorem C9_mode_flags (db : List DbStudent) (admin ev c e : Nat)
    (nts : String) (l : List AttendanceRec) (ids : List Nat)
    (ss : List DbStudent) (a : AttendanceRec) :
    (a ∈ (manual_attendance db admin ev nts l ids).1 →
      a ∈ l ∨ (a.is_manual = true ∧ ∃ t, a.notes = some t ∧ t ≠ ""))
    ∧ (a ∈ (markGroup c e l ss).1 →
      a ∈ l ∨ (a.is_manual = false ∧ a.notes = none)) := by
  constructor
  · intro h
    rcases manual_attendance_mem db admin ev nts ids l a h with
      h' | ⟨_, _, s, _, rfl⟩
    · exact Or.inl h'
    · exact Or.inr ⟨rfl, manualNotes nts, rfl, manualNotes_ne_empty nts⟩
  · intro h
    rcases markGroup_mem c e ss l a h with h' | ⟨s, _, rfl⟩
    · exact Or.inl h'
    · exact Or.inr ⟨rfl, rfl⟩

theorem C9_mode_flags_witness :
    ((⟨1, 5, 9, true, some (manualNotes "proxy noted")⟩ : AttendanceRec) ∈ [] ∨
      ((⟨1, 5, 9, true, some (manualNotes "proxy noted")⟩ : AttendanceRec).is_manual = true ∧
        ∃ t, (⟨1, 5, 9, true, some (manualNotes "proxy noted")⟩ : AttendanceRec).notes = some t ∧ t ≠ ""))
    ∧ ((⟨1, 5, 9, false, none⟩ : AttendanceRec) ∈ [] ∨
      ((⟨1, 5, 9, false, none⟩ : AttendanceRec).is_manual = false ∧
        (⟨1, 5, 9, false, none⟩ : AttendanceRec).notes = none)) :=
  ⟨(C9_mode_flags [⟨1, "S1", true⟩] 9 5 9 5 "proxy noted" [] [1] []
      ⟨1, 5, 9, true, some (manualNotes "proxy noted")⟩).1 (by decide),
   (C9_mode_flags [⟨1, "S1", true⟩] 9 5 9 5 "proxy noted" [] [1] [⟨1, "S1", true⟩]
      ⟨1, 5, 9, false, none⟩).2 (by decide)⟩

/-- C10: every record either write path creates references a student that is
active in the directory at creation time; and a manually submitted id with
no active matching student is silently skipped — the head of the id list is
simply dropped, creating no record. -/
theorem C10_active_students_only (db : List DbStudent) (admin ev c e sid : Nat)
    (nts : String) (l : List AttendanceRec) (ids : List Nat)
    (m : TrainedModel) (img : Image) (l2 : List AttendanceRec) (n : Nat)
    (a : AttendanceRec) :
    (a ∈ (manual_attendance db admin ev nts l ids).1 →
      a ∈ l ∨ ∃ s ∈ db, s.pk = a.student ∧ s.is_active = true)
    ∧ (group_attendance m db l c e img = .completed l2 n →
        ∀ b ∈ l2, b ∈ l ∨ ∃ s ∈ db, s.pk = b.student ∧ s.is_active = true)
    ∧ (db.find? (fun s => s.pk == sid && s.is_active) = none →
        manual_attendance db admin ev nts l (sid :: ids) =
          manual_attendance db admin ev nts l ids) := by
  refine ⟨?_, ?_, ?_⟩
  · intro h
    rcases manual_attendance_mem db admin ev nts ids l a h with
      h' | ⟨_, _, s, hs, rfl⟩
    · exact Or.inl h'
    · have hmem := List.mem_of_find?_eq_some hs
      have hp := List.find?_some hs
      simp only [Bool.and_eq_true, beq_iff_eq] at hp
      exact Or.inr ⟨s, hmem, rfl, hp.2⟩
  · intro hg b hb
    obtain ⟨_, _, hmk⟩ := group_attendance_completed hg
    have hl2 : (markGroup c e l (recognizedStudents 70 m db img.faces)).1 = l2 := by
      rw [hmk]
    rcases markGroup_mem c e _ l b (hl2 ▸ hb) with h' | ⟨s', hs', rfl⟩
    · exact Or.inl h'
    · have hmem : s' ∈ (img.faces).filterMap (acceptFace 70 m db) := by
        rw [← recogLoop_snd]
        exact hs'
      rcases List.mem_filterMap.mp hmem with ⟨q, _, hacc⟩
      obtain ⟨hdb, hact⟩ := acceptFace_active hacc
      exact Or.inr ⟨s', hdb, rfl, hact⟩
  · intro h
    simp only [manual_attendance]
    rw [h]

theorem C10_active_students_only_witness :
    ((⟨1, 5, 9, true, some (manualNotes "")⟩ : AttendanceRec) ∈ [] ∨
      ∃ s ∈ [(⟨1, "S1", true⟩ : DbStudent), ⟨2, "S2", false⟩],
        s.pk = (⟨1, 5, 9, true, some (manualNotes "")⟩ : AttendanceRec).student ∧
          s.is_active = true)
    ∧ manual_attendance [⟨1, "S1", true⟩, ⟨2, "S2", false⟩] 9 5 "" [] [2, 1] =
        manual_attendance [⟨1, "S1", true⟩, ⟨2, "S2", false⟩] 9 5 "" [] [1] :=
  ⟨(C10_active_students_only [⟨1, "S1", true⟩, ⟨2, "S2", false⟩] 9 5 9 5 2 ""
      [] [1] ⟨fun p => (p, 50), [(0, "S1")]⟩ ⟨true, [0]⟩ [] 0
      ⟨1, 5, 9, true, some (manualNotes "")⟩).1 (by decide),
   (C10_active_students_only [⟨1, "S1", true⟩, ⟨2, "S2", false⟩] 9 5 9 5 2 ""
      [] [1] ⟨fun p => (p, 50), [(0, "S1")]⟩ ⟨true, [0]⟩ [] 0
      ⟨1, 5, 9, true, some (manualNotes "")⟩).2.2 (by decide)⟩

/-- C3 counterexample: the code does not surface a distinct `Untrainable`
outcome to the recognition caller. With an empty enrollment (training set
empty, so `load_and_train` fails) `recognize_face` returns `None` — exactly
the same caller-visible value as a trained recognizer that silently finds no
match on the same image — so the untrainable case is indistinguishable from
"no matches", contradicting the claim that it is surfaced explicitly. -/
theorem C3_counterexample :
    (recognize_face ⟨fun p => (p, 100), none⟩ [] ⟨true, [0]⟩).1 = none
    ∧ (recognize_face ⟨fun p => (p, 100), some [(0, "S1")]⟩
        [⟨"S1", true, some ⟨true, [0]⟩⟩] ⟨true, [0]⟩).1 = none
    ∧ (recognize_face ⟨fun p => (p, 100), none⟩ [] ⟨true, [0]⟩).1 =
      (recognize_face ⟨fun p => (p, 100), some [(0, "S1")]⟩
        [⟨"S1", true, some ⟨true, [0]⟩⟩] ⟨true, [0]⟩).1 :=
  ⟨rfl, rfl, rfl⟩

/-- C3 amended: when the accumulated training set is empty (including the
empty enrollment case), `load_and_train` fails (returns `False`, modelled as
`none`), and a subsequent `recognize_face` call returns `None` without ever
invoking the classifier (zero `predict` calls); the failure is however the
plain no-result value `None`, not a distinct `Untrainable` error. -/
theorem C3_untrainable_amended (r : SFR) (students : List EnrolledStudent)
    (img : Image) (hts : trainingSet students = [])
    (huntrained : r.label_ids = none) :
    load_and_train students = none
    ∧ recognize_face r students img = (none, 0) := by
  have hlt : load_and_train students = none := by
    unfold load_and_train
    rw [hts]
    rfl
  refine ⟨hlt, ?_⟩
  unfold recognize_face
  rw [huntrained, hlt]

theorem C3_untrainable_amended_witness :
    load_and_train [] = none
    ∧ recognize_face ⟨fun p => (p, 100), none⟩ [] ⟨true, [0]⟩ = (none, 0) :=
  C3_untrainable_amended ⟨fun p => (p, 100), none⟩ [] ⟨true, [0]⟩ rfl rfl

/-- C8 counterexample: a valid image with zero detected faces is not a
non-error outcome distinguishable from the error outcomes. The group view
reports it through `messages.error` (the error channel), and
`recognize_face` returns for it the very same value `None` that it returns
for an unreadable image (its `ImageUnreadable` case). -/
theorem C8_counterexample :
    (group_attendance ⟨fun p => (p, 50), [(0, "S1")]⟩ [⟨1, "S1", true⟩] [] 9 5
        ⟨true, []⟩).msgKind = MsgKind.error
    ∧ (recognize_face ⟨fun p => (p, 50), some [(0, "S1")]⟩ [] ⟨true, []⟩).1 =
      (recognize_face ⟨fun p => (p, 50), some [(0, "S1")]⟩ [] ⟨false, [0]⟩).1 :=
  ⟨rfl, rfl⟩

/-- C8 amended: a valid (readable) image with zero detected face regions
produces a distinct no-faces outcome in the group view — different from the
invalid-image outcome and from every completion — but that outcome is
reported as an error (`messages.error`), not as a non-error empty result;
and `recognize_face` returns the plain `None` for it (zero classifier
calls), the same value as its error outcomes. -/
theorem C8_no_faces_amended (m : TrainedModel) (db : List DbStudent)
    (l : List AttendanceRec) (c e : Nat) (img : Image)
    (cl : Nat → Nat × ℚ) (lids : List (Nat × String))
    (hr : img.readable = true) (hf : img.faces = []) :
    group_attendance m db l c e img = .noFaces
    ∧ GroupOutcome.noFaces.msgKind = MsgKind.error
    ∧ GroupOutcome.noFaces ≠ GroupOutcome.invalidImage
    ∧ (∀ l2 n, GroupOutcome.noFaces ≠ GroupOutcome.completed l2 n)
    ∧ recognizeBody cl lids img = (none, 0) := by
  refine ⟨?_, rfl, by simp, by simp, ?_⟩
  · unfold group_attendance
    rw [hr, hf]
    rfl
  · unfold recognizeBody
    rw [hr, hf]
    rfl

theorem C8_no_faces_amended_witness :
    group_attendance ⟨fun p => (p, 50), [(0, "S1")]⟩ [⟨1, "S1", true⟩] [] 9 5
        ⟨true, []⟩ = .noFaces
    ∧ GroupOutcome.noFaces.msgKind = MsgKind.error
    ∧ GroupOutcome.noFaces ≠ GroupOutcome.invalidImage
    ∧ (∀ l2 n, GroupOutcome.noFaces ≠ GroupOutcome.completed l2 n)
    ∧ recognizeBody (fun p => (p, 50)) [(0, "S1")] ⟨true, []⟩ = (none, 0) :=
  C8_no_faces_amended ⟨fun p => (p, 50), [(0, "S1")]⟩ [⟨1, "S1", true⟩] [] 9 5
    ⟨true, []⟩ (fun p => (p, 50)) [(0, "S1")] rfl rfl

end NSS
